import Mathlib

/-!
Shallow embedding of the pyspur frontend workflow-graph core, translated from
src/frontend/src/components/nodes/DynamicNode.tsx (handle resolution, the
trace-table status maps) and
src/frontend/src/components/rag/KnowledgeBaseWizard.tsx (the create-request
assembly), together with theorems settling the specified properties.
-/

namespace Spur

/-- Truthiness of a JS string: the empty string is falsy. -/
def strTruthy (s : String) : Bool := s != ""

/-- JS short-circuit or on strings: a falsy left operand yields the right one. -/
def jsOr (a b : String) : String := if a = "" then b else a

/-- Truthiness of an optional JS string (null/undefined and "" are falsy). -/
def optTruthy : Option String → Bool
  | some s => strTruthy s
  | none => false

/-- JS String.startsWith, embedded on the character lists so that it is
kernel-computable. -/
def jsStartsWith (s pre : String) : Bool := pre.data.isPrefixOf s.data

/-- The data payload of a flow node: only the title field is read by the
handle-resolution code of DynamicNode.tsx. -/
structure NodeData where
  title : Option String
  deriving DecidableEq

/-- A flow node as selected from the store in DynamicNode.tsx lines 44-61:
id, type tag and the data payload with its title. -/
structure Node where
  id : String
  type : String
  data : NodeData
  deriving DecidableEq

/-- A flow edge: source and target node ids plus the optional source and
target handle identifiers. -/
structure Edge where
  source : String
  target : String
  sourceHandle : Option String
  targetHandle : Option String
  deriving DecidableEq

/-- The from-handle of an in-progress react-flow connection gesture. -/
structure FromHandle where
  nodeId : String
  id : String
  deriving DecidableEq

/-- The in-progress connection gesture as surfaced by useConnection in
DynamicNode.tsx line 223: inactive, or active with candidate endpoints. -/
structure Connection where
  inProgress : Bool
  toNode : Option Node
  fromNode : Option Node
  fromHandle : Option FromHandle
  deriving DecidableEq

/-- The gesture state when no drag is underway. -/
def noConnection : Connection :=
  { inProgress := false, toNode := none, fromNode := none, fromHandle := none }

/-- DynamicNode.tsx lines 229-242: map one committed edge targeting this node
to its predecessor entry. A missing source node yields null; a RouterNode
source with a truthy sourceHandle yields a synthetic entry whose title is the
source id composed with the branch name, separated by a dot; otherwise the
source node itself is the entry. -/
def predecessorOfEdge (nodes : List Node) (edge : Edge) : Option Node :=
  match nodes.find? (fun n => n.id == edge.source) with
  | none => none
  | some sourceNode =>
    if sourceNode.type == "RouterNode" && optTruthy edge.sourceHandle then
      some { id := sourceNode.id, type := sourceNode.type,
             data := { title := some (edge.source ++ "." ++ edge.sourceHandle.getD "") } }
    else
      some sourceNode

/-- DynamicNode.tsx lines 227-243: the committed predecessor entries of the
node with the given id, in edge order, with unresolvable sources dropped
(the filter(Boolean) step). -/
def updatedPredecessorNodes (nodes : List Node) (edges : List Edge) (id : String) : List Node :=
  (edges.filter (fun e => e.target == id)).filterMap (predecessorOfEdge nodes)

/-- First-occurrence deduplication by node id, with an accumulator of already
seen ids; dedupById below starts it with the empty accumulator. -/
def dedupByIdAux (seen : List String) : List Node → List Node
  | [] => []
  | n :: rest =>
    if n.id ∈ seen then dedupByIdAux seen rest
    else n :: dedupByIdAux (n.id :: seen) rest

/-- DynamicNode.tsx line 269 and line 289: keep only the first occurrence of
each node id, preserving discovery order (the findIndex-based filter). -/
def dedupById (xs : List Node) : List Node := dedupByIdAux [] xs

/-- DynamicNode.tsx lines 249-265: the preview predecessor entry appended for
an in-progress gesture. A RouterNode source with a present from-handle gets a
title composed from the handle node id and the handle id, separated by a dot;
otherwise the title is the source title if truthy, else the source id. -/
def previewPredecessor (fromN : Node) (fromHandle : Option FromHandle) : Node :=
  match fromHandle with
  | some fh =>
    if fromN.type == "RouterNode" then
      { id := fromN.id, type := fromN.type,
        data := { title := some (fh.nodeId ++ "." ++ fh.id) } }
    else
      { id := fromN.id, type := fromN.type,
        data := { title := some (jsOr (fromN.data.title.getD "") fromN.id) } }
  | none =>
    { id := fromN.id, type := fromN.type,
      data := { title := some (jsOr (fromN.data.title.getD "") fromN.id) } }

/-- DynamicNode.tsx lines 245-267: the committed predecessors, extended with
one preview entry when the gesture is in progress, targets this node, has a
from-node, and that from-node id is not already among the committed
predecessor ids. -/
def gestureAugmented (nodes : List Node) (edges : List Edge) (conn : Connection)
    (id : String) : List Node :=
  let upd := updatedPredecessorNodes nodes edges id
  if conn.inProgress then
    match conn.toNode with
    | some toN =>
      if toN.id == id then
        match conn.fromNode with
        | some fromN =>
          if (upd.find? (fun n => n.id == fromN.id)).isNone then
            upd ++ [previewPredecessor fromN conn.fromHandle]
          else upd
        | none => upd
      else upd
    | none => upd
  else upd

/-- DynamicNode.tsx lines 226-271: the memoized finalPredecessors value, the
gesture-augmented predecessor list deduplicated by node id. -/
def finalPredecessors (nodes : List Node) (edges : List Edge) (conn : Connection)
    (id : String) : List Node :=
  dedupById (gestureAugmented nodes edges conn id)

/-- Whether the gesture is in progress and its candidate target is the node
with the given id (the outer condition at DynamicNode.tsx line 247). -/
def gestureTargets (conn : Connection) (id : String) : Bool :=
  conn.inProgress &&
    (match conn.toNode with
     | some toN => toN.id == id
     | none => false)

/-- DynamicNode.tsx line 296: String(node.data?.title || node.id || ''), the
rendered identifier of an input handle derived from a predecessor entry. -/
def handleId (n : Node) : String := jsOr (jsOr (n.data.title.getD "") n.id) ""

/-- DynamicNode.tsx lines 287-305: the ordered identifiers of the rendered
input handles: finalPredecessors, deduplicated by node id once more, each
mapped to its handle identifier. -/
def inputHandleIds (nodes : List Node) (edges : List Edge) (conn : Connection)
    (id : String) : List String :=
  (dedupById (finalPredecessors nodes edges conn id)).map handleId

/-- DynamicNode.tsx lines 307-315: the identifiers of the rendered output
handles. The row is rendered only when nodeData.title is truthy, and its
keyName is String(title || id). -/
def outputHandleIds (nodeData : NodeData) (id : String) : List String :=
  match nodeData.title with
  | some t => if strTruthy t then [jsOr t id] else []
  | none => []

/-- DynamicNode.tsx lines 139-140: connectability of an input handle row,
where connections is the number of committed connections reported by
useHandleConnections for this target handle. -/
def isConnectable (isCollapsed : Bool) (keyName : String) (connections : Nat) : Bool :=
  !isCollapsed && (connections == 0 || jsStartsWith keyName "branch")

/-- DynamicNode.tsx line 70: the structural keywords stripped from property
metadata. -/
def schemaKeywords : List String := ["required", "title", "type"]

/-- DynamicNode.tsx lines 69-77: keep exactly the metadata entries whose keys
are not structural keywords, preserving order and values (the reduce over
Object.keys). Metadata is an ordered key-value mapping. -/
def excludeSchemaKeywords {α : Type} (metadata : List (String × α)) : List (String × α) :=
  metadata.filter (fun kv => !(schemaKeywords.contains kv.1))

/-- DynamicNode.tsx lines 79-80: excludeSchemaKeywords(metadata || {}), the
cleaned metadata for a possibly missing lookup result. -/
def cleanedMetadata {α : Type} (metadata : Option (List (String × α))) : List (String × α) :=
  excludeSchemaKeywords (metadata.getD [])

/-- TraceTable getStatusColor (lines 389-403 of the combined source): map a
run status string to a chip color, with a default fallback. -/
def getStatusColor (status : String) : String :=
  match status with
  | "COMPLETED" => "success"
  | "RUNNING" => "warning"
  | "PENDING" => "warning"
  | "PAUSED" => "warning"
  | "FAILED" => "danger"
  | "CANCELLED" => "danger"
  | _ => "default"

/-- TraceTable getStatusIcon (lines 405-422 of the combined source): map a
run status string to an icon name, with a question-mark fallback. -/
def getStatusIcon (status : String) : String :=
  match status with
  | "COMPLETED" => "solar:check-circle-linear"
  | "RUNNING" => "solar:running-linear"
  | "PENDING" => "solar:clock-circle-linear"
  | "PAUSED" => "solar:pause-circle-linear"
  | "FAILED" => "solar:danger-circle-linear"
  | "CANCELLED" => "solar:close-circle-linear"
  | _ => "solar:question-circle-linear"

/-- The closed set of run statuses of the run-trigger interface. -/
def runStatuses : List String :=
  ["PENDING", "RUNNING", "PAUSED", "COMPLETED", "FAILED", "CANCELLED"]

/-- KnowledgeBaseWizard.tsx lines 215-233: the wizard form fields read by the
final-step submission; all are stored as strings. -/
structure FormData where
  name : String
  description : String
  chunkSize : String
  overlap : String
  embeddingModel : String
  vectorDb : String
  searchStrategy : String
  semanticWeight : String
  keywordWeight : String
  topK : String
  scoreThreshold : String
  parsingStrategy : String
  deriving DecidableEq

/-- The data_source section of the create request. -/
structure DataSource where
  type : String
  files : List String
  deriving DecidableEq

/-- The text_processing section of the create request; beta is the numeric
type produced by the JS Number conversion. -/
structure TextProcessing (β : Type) where
  parsing_strategy : String
  chunk_size : β
  overlap : β
  deriving DecidableEq

/-- The embedding section of the create request; the four hybrid-search
fields are optional. -/
structure EmbeddingConfig (β : Type) where
  model : String
  vector_db : String
  search_strategy : String
  semantic_weight : Option β
  keyword_weight : Option β
  top_k : Option β
  score_threshold : Option β
  deriving DecidableEq

/-- The KnowledgeBaseCreateRequest shape assembled by handleNext. -/
structure KnowledgeBaseCreateRequest (β : Type) where
  name : String
  description : String
  data_source : DataSource
  text_processing : TextProcessing β
  embedding : EmbeddingConfig β
  deriving DecidableEq

/-- KnowledgeBaseWizard.tsx lines 603-624: the create request built on the
final wizard step; num stands for the JS Number conversion applied to the
string form values. -/
def buildCreateRequest {β : Type} (num : String → β) (formData : FormData)
    (uploadedFiles : List String) : KnowledgeBaseCreateRequest β :=
  { name := jsOr formData.name "New Knowledge Base"
    description := formData.description
    data_source := { type := "upload", files := uploadedFiles }
    text_processing :=
      { parsing_strategy := formData.parsingStrategy
        chunk_size := num formData.chunkSize
        overlap := num formData.overlap }
    embedding :=
      { model := formData.embeddingModel
        vector_db := formData.vectorDb
        search_strategy := formData.searchStrategy
        semantic_weight :=
          if formData.searchStrategy == "hybrid" then some (num formData.semanticWeight) else none
        keyword_weight :=
          if formData.searchStrategy == "hybrid" then some (num formData.keywordWeight) else none
        top_k :=
          if formData.searchStrategy == "hybrid" then some (num formData.topK) else none
        score_threshold :=
          if formData.searchStrategy == "hybrid" then some (num formData.scoreThreshold) else none } }

/-- Modelled from the spec: a templated string field is a token list, each
token either a literal chunk or a placeholder referencing a schema key (the
key wrapped in double-brace delimiters with optional interior whitespace).
The Rename Propagation Engine of spec section 4.4 is absent from the provided
sources (the editing Input in InputHandleRow carries no commit handler), so
it is modelled here from the spec text. -/
inductive TemplateToken where
  | lit (s : String)
  | placeholder (key : String)
  deriving DecidableEq

/-- Modelled from the spec: rewriting one template token during a rename, as
in spec section 4.4 step 2 — a placeholder referencing oldKey is replaced by
one referencing newKey; all other tokens are unchanged. -/
def renameToken (oldKey newKey : String) : TemplateToken → TemplateToken
  | .lit s => .lit s
  | .placeholder k => if k == oldKey then .placeholder newKey else .placeholder k

/-- Modelled from the spec: rewriting a whole templated string field. -/
def renameTemplate (oldKey newKey : String) (t : List TemplateToken) : List TemplateToken :=
  t.map (renameToken oldKey newKey)

/-- Modelled from the spec: whitespace normalization of a new key, spaces
replaced with underscores (spec section 4.4 preconditions). -/
def normalizeKey (s : String) : String :=
  ⟨s.data.map (fun c => if c = ' ' then '_' else c)⟩

/-- Modelled from the spec: section 4.4 step 1 — replace oldKey in place at
its position with newKey, keeping the original value and entry order; an
absent oldKey leaves the mapping unchanged. The schema is an ordered
key-value mapping. -/
def renameSchemaKey {V : Type} (oldKey newKey : String)
    (schema : List (String × V)) : List (String × V) :=
  schema.map (fun kv => if kv.1 == oldKey then (newKey, kv.2) else kv)

/-- Modelled from the spec: section 4.4 step 4 — rewrite every edge into the
renamed node whose targetHandle equals oldKey, replacing it with newKey. -/
def renameEdges (nodeId oldKey newKey : String) (edges : List Edge) : List Edge :=
  edges.map (fun e =>
    if e.target == nodeId && e.targetHandle == some oldKey then
      { e with targetHandle := some newKey }
    else e)

/-- Modelled from the spec: the state touched by an input-schema rename on
one node — the schema mapping, the templated string fields, and the edges of
the graph. -/
structure RenameState (V : Type) where
  schema : List (String × V)
  templates : List (List TemplateToken)
  edges : List Edge
  deriving DecidableEq

/-- Modelled from the spec: propagateRename for an input-schema key. The
normalized new key equal to the old key or empty makes the operation a no-op;
otherwise the schema, all templates and the edges are rewritten in one
functional update, which models the atomic transaction of spec section 4.4
steps 3 and 4. -/
def propagateRename {V : Type} (nodeId oldKey rawNewKey : String)
    (st : RenameState V) : RenameState V :=
  let newKey := normalizeKey rawNewKey
  if newKey == "" || newKey == oldKey then st
  else
    { schema := renameSchemaKey oldKey newKey st.schema
      templates := st.templates.map (renameTemplate oldKey newKey)
      edges := renameEdges nodeId oldKey newKey st.edges }

/-- A node sample: a router with id R. -/
def rNode : Node := { id := "R", type := "RouterNode", data := { title := none } }

/-- A node sample: a plain downstream node with id C. -/
def cNode : Node := { id := "C", type := "CoalesceNode", data := { title := none } }

/-- An edge sample: from branch b1 of R to C. -/
def edgeRb1C : Edge := { source := "R", target := "C", sourceHandle := some "b1", targetHandle := none }

/-- An edge sample: from branch b2 of R to C. -/
def edgeRb2C : Edge := { source := "R", target := "C", sourceHandle := some "b2", targetHandle := none }

/-- A gesture sample: an in-progress drag from branch b2 of R onto C. -/
def sampleGesture : Connection :=
  { inProgress := true, toNode := some cNode, fromNode := some rNode,
    fromHandle := some { nodeId := "R", id := "b2" } }

/-- A rename-state sample: a two-key schema, one template and one edge. -/
def sampleRenameState : RenameState Nat :=
  { schema := [("a", 1), ("k", 2)],
    templates := [[.lit "x", .placeholder "k", .placeholder "a"]],
    edges := [{ source := "U", target := "N", sourceHandle := none, targetHandle := some "k" }] }

/-- A form sample with the hybrid search strategy selected. -/
def sampleFormHybrid : FormData :=
  { name := "kb", description := "d", chunkSize := "1000", overlap := "200",
    embeddingModel := "openai", vectorDb := "pinecone", searchStrategy := "hybrid",
    semanticWeight := "0.7", keywordWeight := "0.3", topK := "2",
    scoreThreshold := "0.7", parsingStrategy := "auto" }

/-- A form sample with the vector search strategy selected. -/
def sampleFormVector : FormData :=
  { sampleFormHybrid with searchStrategy := "vector" }

theorem jsOr_empty_right (a : String) : jsOr a "" = a := by
  unfold jsOr; split <;> simp_all

theorem jsOr_absorb (t0 i : String) : jsOr (jsOr t0 i) i = jsOr t0 i := by
  unfold jsOr; split_ifs <;> simp_all

theorem compose_ne_empty (a b : String) : a ++ "." ++ b ≠ "" := by
  intro h
  have h1 : (a ++ "." ++ b).length = 0 := by rw [h]; rfl
  rw [String.length_append, String.length_append] at h1
  have h2 : String.length "." = 1 := rfl
  omega

theorem handleId_eq_title {n : Node} {t : String}
    (h : n.data.title = some t) (ht : t ≠ "") : handleId n = t := by
  simp [handleId, h, jsOr, ht]

theorem handleId_eq_id {n : Node}
    (h : n.data.title = none ∨ n.data.title = some "") : handleId n = n.id := by
  rcases h with h | h <;> simp [handleId, h, jsOr_empty_right] <;> simp [jsOr]

theorem mem_of_mem_dedupByIdAux {seen : List String} {xs : List Node} {n : Node}
    (h : n ∈ dedupByIdAux seen xs) : n ∈ xs := by
  induction xs generalizing seen with
  | nil => simp [dedupByIdAux] at h
  | cons m rest ih =>
    unfold dedupByIdAux at h
    by_cases hm : m.id ∈ seen
    · rw [if_pos hm] at h
      exact List.mem_cons_of_mem _ (ih h)
    · rw [if_neg hm] at h
      rcases List.mem_cons.mp h with h | h
      · exact h ▸ List.mem_cons_self _ _
      · exact List.mem_cons_of_mem _ (ih h)

theorem dedupByIdAux_append {xs : List Node} {p : Node} :
    ∀ {seen : List String}, p.id ∉ seen → (∀ n ∈ xs, n.id ≠ p.id) →
      dedupByIdAux seen (xs ++ [p]) = dedupByIdAux seen xs ++ [p] := by
  induction xs with
  | nil =>
    intro seen hseen _
    simp [dedupByIdAux, hseen]
  | cons m rest ih =>
    intro seen hseen hxs
    have hm' : m.id ≠ p.id := hxs m (List.mem_cons_self _ _)
    have hrest : ∀ n ∈ rest, n.id ≠ p.id := fun n hn => hxs n (List.mem_cons_of_mem _ hn)
    by_cases hm : m.id ∈ seen
    · rw [List.cons_append]
      unfold dedupByIdAux
      rw [if_pos hm, if_pos hm]
      exact ih hseen hrest
    · rw [List.cons_append]
      unfold dedupByIdAux
      rw [if_neg hm, if_neg hm]
      have hseen' : p.id ∉ m.id :: seen := by
        intro hmem
        rcases List.mem_cons.mp hmem with h | h
        · exact hm' h.symm
        · exact hseen h
      rw [ih hseen' hrest, List.cons_append]

theorem dedupByIdAux_idem (xs : List Node) :
    ∀ seen, dedupByIdAux seen (dedupByIdAux seen xs) = dedupByIdAux seen xs := by
  induction xs with
  | nil => intro seen; rfl
  | cons m rest ih =>
    intro seen
    by_cases hm : m.id ∈ seen
    · have hstep : dedupByIdAux seen (m :: rest) = dedupByIdAux seen rest := by
        simp only [dedupByIdAux]; rw [if_pos hm]
      rw [hstep]
      exact ih seen
    · have hstep : dedupByIdAux seen (m :: rest) = m :: dedupByIdAux (m.id :: seen) rest := by
        simp only [dedupByIdAux]; rw [if_neg hm]
      rw [hstep]
      have hstep2 : dedupByIdAux seen (m :: dedupByIdAux (m.id :: seen) rest) =
          m :: dedupByIdAux (m.id :: seen) (dedupByIdAux (m.id :: seen) rest) := by
        simp only [dedupByIdAux]; rw [if_neg hm]
      rw [hstep2, ih (m.id :: seen)]

theorem dedupById_idem (xs : List Node) : dedupById (dedupById xs) = dedupById xs :=
  dedupByIdAux_idem xs []

theorem dedupById_append {xs : List Node} {p : Node}
    (hxs : ∀ n ∈ xs, n.id ≠ p.id) :
    dedupById (xs ++ [p]) = dedupById xs ++ [p] :=
  dedupByIdAux_append (List.not_mem_nil _) hxs

theorem previewPredecessor_id (f : Node) (fh : Option FromHandle) :
    (previewPredecessor f fh).id = f.id := by
  cases fh with
  | none => rfl
  | some fh' =>
    unfold previewPredecessor
    by_cases h : (f.type == "RouterNode") = true <;> simp [h]

theorem handleId_previewPredecessor (f : Node) (fh : Option FromHandle) :
    handleId (previewPredecessor f fh) =
      (match fh with
       | some fh' =>
         if f.type == "RouterNode" then fh'.nodeId ++ "." ++ fh'.id
         else jsOr (f.data.title.getD "") f.id
       | none => jsOr (f.data.title.getD "") f.id) := by
  cases fh with
  | none =>
    simp only [previewPredecessor, handleId, Option.getD_some]
    rw [jsOr_empty_right, jsOr_absorb]
  | some fh' =>
    by_cases h : (f.type == "RouterNode") = true
    · simp only [previewPredecessor, handleId, Option.getD_some, if_pos h]
      rw [jsOr_empty_right, jsOr, if_neg (compose_ne_empty fh'.nodeId fh'.id)]
    · simp only [previewPredecessor, handleId, Option.getD_some, if_neg h]
      rw [jsOr_empty_right, jsOr_absorb]

theorem gestureAugmented_no_gesture {nodes : List Node} {edges : List Edge}
    {conn : Connection} {id : String} (h : gestureTargets conn id = false) :
    gestureAugmented nodes edges conn id = updatedPredecessorNodes nodes edges id := by
  unfold gestureTargets at h
  unfold gestureAugmented
  cases hip : conn.inProgress with
  | false => simp
  | true =>
    rw [hip] at h
    simp only [Bool.true_and] at h
    cases hto : conn.toNode with
    | none => simp
    | some toN =>
      rw [hto] at h
      simp only at h
      simp [h]

theorem inputHandleIds_noConnection (nodes : List Node) (edges : List Edge) (id : String) :
    inputHandleIds nodes edges noConnection id =
      (dedupById (updatedPredecessorNodes nodes edges id)).map handleId := by
  unfold inputHandleIds finalPredecessors
  rw [gestureAugmented_no_gesture (by rfl), dedupById_idem]

/-- C4 counterexample: a node without a title has zero output handles, not
one identified by its id — the output row at DynamicNode.tsx line 309 is
guarded by the truthiness of the title. -/
theorem c4_counterexample :
    outputHandleIds { title := none } "A" = [] ∧
    outputHandleIds { title := none } "A" ≠ ["A"] := by
  constructor
  · rfl
  · intro h
    exact List.cons_ne_nil "A" [] (h.symm)

/-- C4 amended: a node with a truthy title has exactly one output handle
identified by that title; a node with an absent or empty title has no output
handle at all. -/
theorem c4_amended :
    (∀ (t id : String), t ≠ "" → outputHandleIds { title := some t } id = [t]) ∧
    (∀ (id : String), outputHandleIds { title := none } id = []) ∧
    (∀ (id : String), outputHandleIds { title := some "" } id = []) := by
  refine ⟨?_, fun _ => rfl, fun _ => rfl⟩
  intro t id ht
  simp [outputHandleIds, strTruthy, ht, jsOr]

/-- C4 amended witness: evaluated at a titled node and at an untitled node. -/
theorem c4_amended_witness :
    outputHandleIds { title := some "Extractor" } "A" = ["Extractor"] :=
  c4_amended.1 "Extractor" "A" (by decide)

/-- C5: an input handle with a committed connection is non-connectable unless
its identifier starts with the branch prefix; on a non-collapsed node a
branch-prefixed handle stays connectable with any number of connections, and
a handle with zero connections is connectable. -/
theorem c5_connectability :
    (∀ (c : Bool) (k : String) (n : Nat), 0 < n → jsStartsWith k "branch" = false →
       isConnectable c k n = false) ∧
    (∀ (k : String) (n : Nat), jsStartsWith k "branch" = true →
       isConnectable false k n = true) ∧
    (∀ (k : String), isConnectable false k 0 = true) := by
  refine ⟨?_, ?_, ?_⟩
  · intro c k n hn hb
    have h0 : (n == 0) = false := by
      simp [Nat.pos_iff_ne_zero.mp hn]
    simp [isConnectable, hb, h0]
  · intro k n hb
    simp [isConnectable, hb]
  · intro k
    simp [isConnectable]

/-- C5 witness: a connected plain handle is non-connectable, a connected
branch handle stays connectable, an unconnected handle is connectable. -/
theorem c5_connectability_witness :
    isConnectable true "doc" 1 = false ∧
    isConnectable false "branch_1" 5 = true ∧
    isConnectable false "doc" 0 = true :=
  ⟨c5_connectability.1 true "doc" 1 (by decide) (by decide),
   c5_connectability.2.1 "branch_1" 5 (by decide),
   c5_connectability.2.2 "doc"⟩

/-- C7: the cleaned metadata keeps exactly the entries whose keys are not
structural keywords, values unchanged, and a missing metadata lookup yields
the empty mapping. -/
theorem c7_schema_registry {α : Type} (md : List (String × α)) (k : String) (v : α) :
    ((k, v) ∈ excludeSchemaKeywords md ↔
       (k, v) ∈ md ∧ schemaKeywords.contains k = false) ∧
    cleanedMetadata (none : Option (List (String × α))) = [] := by
  constructor
  · simp [excludeSchemaKeywords, List.mem_filter]
  · rfl

/-- C8: recomputing the input-handle list from the same state twice yields
the identical list, and the dedup step of the renderer is a fixpoint of the
already deduplicated finalPredecessors value. -/
theorem c8_idempotent_resolution (nodes : List Node) (edges : List Edge)
    (conn : Connection) (id : String) :
    inputHandleIds nodes edges conn id = inputHandleIds nodes edges conn id ∧
    dedupById (finalPredecessors nodes edges conn id) = finalPredecessors nodes edges conn id :=
  ⟨rfl, dedupByIdAux_idem (gestureAugmented nodes edges conn id) []⟩

/-- C9: the embedding section of the create request carries the four numeric
hybrid-search fields exactly when the selected search strategy is hybrid, and
none of them otherwise. -/
theorem c9_hybrid_fields {β : Type} (num : String → β) (fd : FormData) (files : List String) :
    (fd.searchStrategy = "hybrid" →
       (buildCreateRequest num fd files).embedding.semantic_weight = some (num fd.semanticWeight) ∧
       (buildCreateRequest num fd files).embedding.keyword_weight = some (num fd.keywordWeight) ∧
       (buildCreateRequest num fd files).embedding.top_k = some (num fd.topK) ∧
       (buildCreateRequest num fd files).embedding.score_threshold = some (num fd.scoreThreshold)) ∧
    (fd.searchStrategy ≠ "hybrid" →
       (buildCreateRequest num fd files).embedding.semantic_weight = none ∧
       (buildCreateRequest num fd files).embedding.keyword_weight = none ∧
       (buildCreateRequest num fd files).embedding.top_k = none ∧
       (buildCreateRequest num fd files).embedding.score_threshold = none) := by
  constructor
  · intro h
    simp [buildCreateRequest, h]
  · intro h
    simp [buildCreateRequest, h]

/-- C9 witness: evaluated with the identity conversion at a hybrid form and
at a vector form. -/
theorem c9_hybrid_fields_witness :
    ((buildCreateRequest (fun s => s) sampleFormHybrid []).embedding.semantic_weight = some "0.7" ∧
     (buildCreateRequest (fun s => s) sampleFormHybrid []).embedding.keyword_weight = some "0.3" ∧
     (buildCreateRequest (fun s => s) sampleFormHybrid []).embedding.top_k = some "2" ∧
     (buildCreateRequest (fun s => s) sampleFormHybrid []).embedding.score_threshold = some "0.7") ∧
    ((buildCreateRequest (fun s => s) sampleFormVector []).embedding.semantic_weight = none ∧
     (buildCreateRequest (fun s => s) sampleFormVector []).embedding.keyword_weight = none ∧
     (buildCreateRequest (fun s => s) sampleFormVector []).embedding.top_k = none ∧
     (buildCreateRequest (fun s => s) sampleFormVector []).embedding.score_threshold = none) :=
  ⟨(c9_hybrid_fields (fun s => s) sampleFormHybrid []).1 rfl,
   (c9_hybrid_fields (fun s => s) sampleFormVector []).2 (by decide)⟩

/-- C10: over the closed run-status set, the color map never yields the
default fallback and the icon map never yields the question icon; the colors
and icons are exactly the status-specific values of the source switches. -/
theorem c10_status_maps :
    (runStatuses.all (fun s =>
       getStatusColor s != "default" &&
       getStatusIcon s != "solar:question-circle-linear")) = true ∧
    runStatuses.map getStatusColor =
      ["warning", "warning", "warning", "success", "danger", "danger"] ∧
    runStatuses.map getStatusIcon =
      ["solar:clock-circle-linear", "solar:running-linear", "solar:pause-circle-linear",
       "solar:check-circle-linear", "solar:danger-circle-linear", "solar:close-circle-linear"] := by
  refine ⟨?_, rfl, rfl⟩
  decide

/-- C2: the derived input-handle identifier of a committed edge is the
composition of the source id and the branch name when the source is a router
node and the edge carries a truthy sourceHandle; otherwise it is the source
title when truthy, else the source id. -/
theorem c2_handle_identifier (nodes : List Node) (e : Edge) (sn : Node)
    (hfind : nodes.find? (fun n => n.id == e.source) = some sn) :
    (∀ b, sn.type = "RouterNode" → e.sourceHandle = some b → b ≠ "" →
       Option.map handleId (predecessorOfEdge nodes e) = some (e.source ++ "." ++ b)) ∧
    ((sn.type = "RouterNode" → optTruthy e.sourceHandle = false) →
       (∀ t, sn.data.title = some t → t ≠ "" →
          Option.map handleId (predecessorOfEdge nodes e) = some t) ∧
       ((sn.data.title = none ∨ sn.data.title = some "") →
          Option.map handleId (predecessorOfEdge nodes e) = some sn.id)) := by
  constructor
  · intro b hR hb hbne
    have hpe : predecessorOfEdge nodes e =
        some { id := sn.id, type := sn.type,
               data := { title := some (e.source ++ "." ++ b) } } := by
      unfold predecessorOfEdge
      rw [hfind]
      simp [hR, hb, optTruthy, strTruthy, hbne]
    rw [hpe]
    simp only [Option.map_some']
    rw [handleId_eq_title rfl (compose_ne_empty _ _)]
  · intro hcond
    have hfalse : (sn.type == "RouterNode" && optTruthy e.sourceHandle) = false := by
      by_cases hR : sn.type = "RouterNode"
      · simp [hR, hcond hR]
      · simp [hR]
    have hpe : predecessorOfEdge nodes e = some sn := by
      unfold predecessorOfEdge
      rw [hfind]
      simp [hfalse]
    constructor
    · intro t ht htne
      rw [hpe]
      simp only [Option.map_some']
      rw [handleId_eq_title ht htne]
    · intro ht
      rw [hpe]
      simp only [Option.map_some']
      rw [handleId_eq_id ht]

/-- C2 witness: the branch edge from R yields the composed identifier. -/
theorem c2_handle_identifier_witness :
    Option.map handleId (predecessorOfEdge [rNode] edgeRb1C) = some "R.b1" :=
  (c2_handle_identifier [rNode] edgeRb1C rNode rfl).1 "b1" rfl rfl (by decide)

/-- C1 counterexample: two committed edges from two distinct branches b1 and
b2 of router R to node C produce a single input handle, because the dedup at
DynamicNode.tsx line 269 and line 289 compares node ids, not composed
identifiers: the list is exactly the one composed identifier of the first
branch, and the second branch identifier is absent. -/
theorem c1_counterexample :
    inputHandleIds [rNode, cNode] [edgeRb1C, edgeRb2C] noConnection "C" = ["R.b1"] ∧
    "R.b2" ∉ inputHandleIds [rNode, cNode] [edgeRb1C, edgeRb2C] noConnection "C" := by
  constructor
  · rfl
  · decide

/-- C1 amended: for a router node R with two committed edges from branches B1
and B2 to the same downstream node C, the input-handle list of C contains
exactly one handle for R: the composition of the R id with the branch name of
the first edge; the second branch edge contributes no further handle because
deduplication is by upstream node id. -/
theorem c1_branch_dedup (nodes : List Node) (edges : List Edge)
    (cid rid b1 b2 : String) (e1 e2 : Edge) (R : Node)
    (hfilter : edges.filter (fun e => e.target == cid) = [e1, e2])
    (hs1 : e1.source = rid) (hs2 : e2.source = rid)
    (hfind : nodes.find? (fun n => n.id == rid) = some R)
    (hR : R.type = "RouterNode")
    (hb1 : e1.sourceHandle = some b1) (hb1n : b1 ≠ "")
    (hb2 : e2.sourceHandle = some b2) (hb2n : b2 ≠ "") :
    inputHandleIds nodes edges noConnection cid = [rid ++ "." ++ b1] := by
  have hpe1 : predecessorOfEdge nodes e1 =
      some { id := R.id, type := R.type, data := { title := some (rid ++ "." ++ b1) } } := by
    unfold predecessorOfEdge
    rw [hs1, hfind]
    simp [hR, hb1, optTruthy, strTruthy, hb1n]
  have hpe2 : predecessorOfEdge nodes e2 =
      some { id := R.id, type := R.type, data := { title := some (rid ++ "." ++ b2) } } := by
    unfold predecessorOfEdge
    rw [hs2, hfind]
    simp [hR, hb2, optTruthy, strTruthy, hb2n]
  rw [inputHandleIds_noConnection]
  have hupd : updatedPredecessorNodes nodes edges cid =
      [{ id := R.id, type := R.type, data := { title := some (rid ++ "." ++ b1) } },
       { id := R.id, type := R.type, data := { title := some (rid ++ "." ++ b2) } }] := by
    unfold updatedPredecessorNodes
    rw [hfilter]
    simp [hpe1, hpe2]
  rw [hupd]
  have hd : dedupById
      [{ id := R.id, type := R.type, data := { title := some (rid ++ "." ++ b1) } },
       { id := R.id, type := R.type, data := { title := some (rid ++ "." ++ b2) } }] =
      [{ id := R.id, type := R.type, data := { title := some (rid ++ "." ++ b1) } }] := by
    simp [dedupById, dedupByIdAux]
  rw [hd]
  simp only [List.map_cons, List.map_nil]
  rw [handleId_eq_title rfl (compose_ne_empty _ _)]

/-- C1 amended witness: the concrete two-branch router graph evaluates to the
single first-branch identifier. -/
theorem c1_branch_dedup_witness :
    inputHandleIds [rNode, cNode] [edgeRb1C, edgeRb2C] noConnection "C" = ["R" ++ "." ++ "b1"] :=
  c1_branch_dedup [rNode, cNode] [edgeRb1C, edgeRb2C] "C" "R" "b1" "b2"
    edgeRb1C edgeRb2C rNode rfl rfl rfl rfl rfl rfl (by decide) rfl (by decide)

/-- C6: with no gesture targeting the node, the input-handle list equals the
one derived from committed edges alone; with an in-progress gesture targeting
the node whose candidate source is not represented among the committed
predecessors, exactly one preview handle is appended at the end, computed
with the branch-composition rule for routers and title-or-id otherwise. -/
theorem c6_gesture_preview (nodes : List Node) (edges : List Edge)
    (conn : Connection) (id : String) :
    (gestureTargets conn id = false →
       inputHandleIds nodes edges conn id = inputHandleIds nodes edges noConnection id) ∧
    (∀ toN fromN, conn.inProgress = true → conn.toNode = some toN → toN.id = id →
       conn.fromNode = some fromN →
       (∀ n ∈ updatedPredecessorNodes nodes edges id, n.id ≠ fromN.id) →
       inputHandleIds nodes edges conn id =
         inputHandleIds nodes edges noConnection id ++
           [(match conn.fromHandle with
             | some fh =>
               if fromN.type == "RouterNode" then fh.nodeId ++ "." ++ fh.id
               else jsOr (fromN.data.title.getD "") fromN.id
             | none => jsOr (fromN.data.title.getD "") fromN.id)]) := by
  constructor
  · intro h
    unfold inputHandleIds finalPredecessors
    rw [gestureAugmented_no_gesture h, gestureAugmented_no_gesture (by rfl)]
  · intro toN fromN hip hto htid hfrom hnotrep
    have hfindnone : (updatedPredecessorNodes nodes edges id).find?
        (fun n => n.id == fromN.id) = none := by
      apply List.find?_eq_none.mpr
      intro x hx h
      exact hnotrep x hx (by simpa using h)
    have hga : gestureAugmented nodes edges conn id =
        updatedPredecessorNodes nodes edges id ++
          [previewPredecessor fromN conn.fromHandle] := by
      unfold gestureAugmented
      rw [hip, hto, hfrom]
      simp [htid, hfindnone]
    have hp_id : ∀ n ∈ updatedPredecessorNodes nodes edges id,
        n.id ≠ (previewPredecessor fromN conn.fromHandle).id := by
      intro n hn
      rw [previewPredecessor_id]
      exact hnotrep n hn
    have hp_id2 : ∀ n ∈ dedupById (updatedPredecessorNodes nodes edges id),
        n.id ≠ (previewPredecessor fromN conn.fromHandle).id :=
      fun n hn => hp_id n (mem_of_mem_dedupByIdAux hn)
    unfold inputHandleIds finalPredecessors
    rw [hga, gestureAugmented_no_gesture (by rfl)]
    rw [dedupById_append hp_id, dedupById_append hp_id2, dedupById_idem, List.map_append]
    rw [List.map_singleton, handleId_previewPredecessor]

/-- C6 witness: a gesture targeting a different node changes nothing; the
branch gesture from R onto C appends the composed preview identifier. -/
theorem c6_gesture_preview_witness :
    (inputHandleIds [rNode, cNode] [edgeRb1C] sampleGesture "X" =
       inputHandleIds [rNode, cNode] [edgeRb1C] noConnection "X") ∧
    (inputHandleIds [rNode, cNode] [] sampleGesture "C" =
       inputHandleIds [rNode, cNode] [] noConnection "C" ++ ["R.b2"]) :=
  ⟨(c6_gesture_preview [rNode, cNode] [edgeRb1C] sampleGesture "X").1 (by decide),
   (c6_gesture_preview [rNode, cNode] [] sampleGesture "C").2 cNode rNode
     rfl rfl rfl rfl (by decide)⟩

/-- C3: after propagating a rename of schema key k to a distinct non-empty
normalized key k2, in the single functional update produced by
propagateRename: k is gone from the schema, k2 holds the original value at
the original position (length preserved, untouched entries unchanged), every
edge into the node that referenced k in its target handle now references k2
with all other edges unchanged, and every template placeholder referencing k
now reads k2 while literals and placeholders of other keys are unchanged. -/
theorem c3_rename_propagation {V : Type} (nodeId k k2 : String) (st : RenameState V)
    (hne : k2 ≠ "") (hkk : k2 ≠ k) (hnorm : normalizeKey k2 = k2) :
    (∀ kv ∈ (propagateRename nodeId k k2 st).schema, kv.1 ≠ k) ∧
    (propagateRename nodeId k k2 st).schema.length = st.schema.length ∧
    (∀ (i : Nat) (v : V), st.schema[i]? = some (k, v) →
       (propagateRename nodeId k k2 st).schema[i]? = some (k2, v)) ∧
    (∀ (i : Nat) (kv : String × V), st.schema[i]? = some kv → kv.1 ≠ k →
       (propagateRename nodeId k k2 st).schema[i]? = some kv) ∧
    (∀ (i : Nat) (e : Edge), st.edges[i]? = some e →
       (propagateRename nodeId k k2 st).edges[i]? =
         some (if e.target == nodeId && e.targetHandle == some k then
                 { e with targetHandle := some k2 } else e)) ∧
    (∀ (i : Nat) (t : List TemplateToken), st.templates[i]? = some t →
       (propagateRename nodeId k k2 st).templates[i]? = some (renameTemplate k k2 t)) ∧
    renameToken k k2 (.placeholder k) = .placeholder k2 ∧
    (∀ k', k' ≠ k → renameToken k k2 (.placeholder k') = .placeholder k') ∧
    (∀ s, renameToken k k2 (.lit s) = .lit s) := by
  have hpr : propagateRename nodeId k k2 st =
      { schema := renameSchemaKey k k2 st.schema,
        templates := st.templates.map (renameTemplate k k2),
        edges := renameEdges nodeId k k2 st.edges } := by
    unfold propagateRename
    rw [hnorm]
    simp [hne, hkk]
  rw [hpr]
  refine ⟨?_, ?_, ?_, ?_, ?_, ?_, ?_, ?_, ?_⟩
  · intro kv hkv
    unfold renameSchemaKey at hkv
    rcases List.mem_map.mp hkv with ⟨kv0, _, heq⟩
    by_cases h0 : (kv0.1 == k) = true
    · rw [if_pos h0] at heq
      rw [← heq]
      exact hkk
    · rw [if_neg h0] at heq
      rw [← heq]
      simpa using h0
  · exact List.length_map st.schema _
  · intro i v hi
    unfold renameSchemaKey
    rw [List.getElem?_map, hi]
    simp
  · intro i kv hi hk
    unfold renameSchemaKey
    rw [List.getElem?_map, hi]
    simp [hk]
  · intro i e hi
    unfold renameEdges
    rw [List.getElem?_map, hi]
    rfl
  · intro i t hi
    rw [List.getElem?_map, hi]
    rfl
  · simp [renameToken]
  · intro k' h
    simp [renameToken, h]
  · intro s
    rfl

/-- C3 witness: the sample state with schema keys a and k, one template and
one edge, renamed from k to k2, evaluated at concrete positions. -/
theorem c3_rename_propagation_witness :
    (propagateRename "N" "k" "k2" sampleRenameState).schema[1]? = some ("k2", 2) ∧
    (propagateRename "N" "k" "k2" sampleRenameState).schema[0]? = some ("a", 1) ∧
    (propagateRename "N" "k" "k2" sampleRenameState).edges[0]? =
      some { source := "U", target := "N", sourceHandle := none, targetHandle := some "k2" } ∧
    (propagateRename "N" "k" "k2" sampleRenameState).templates[0]? =
      some [.lit "x", .placeholder "k2", .placeholder "a"] := by
  have h := c3_rename_propagation "N" "k" "k2" sampleRenameState
    (by decide) (by decide) (by decide)
  refine ⟨h.2.2.1 1 2 rfl, h.2.2.2.1 0 ("a", 1) rfl (by decide), ?_, ?_⟩
  · have he := h.2.2.2.2.1 0
      { source := "U", target := "N", sourceHandle := none, targetHandle := some "k" } rfl
    simpa using he
  · have ht := h.2.2.2.2.2.1 0 [.lit "x", .placeholder "k", .placeholder "a"] rfl
    simpa [renameTemplate, renameToken] using ht

end Spur
